import Mathlib

/-!
Shallow embedding of the pyzlang interpreter front end
(src/interpreter/{tokens,lexer,ast,parselets,parser}.py) and proofs about
the claims of the specification.

Conventions of the embedding:
* Python exceptions become the `PyErr` error type of an `Except PyErr` result.
  Raising is `.error`, normal return is `.ok`.
* Python strings are scanned as `List Char` suffixes: a helper that the source
  calls with the whole string and a start index is modelled as a function of
  the remaining suffix, which is the standard faithful rendering of
  index-based scanning.
* The lazily-generated token stream is modelled as the fully materialised
  token list; recursion that Python expresses as a `while` over an index is
  expressed with an explicit fuel argument so that every definition is a
  computable structural recursion that the kernel can evaluate.  Fuel
  exhaustion is reported by the artificial error `PyErr.internalFuelError`,
  and for the lexer we prove it unreachable for the fuel that `lexer_tokens`
  supplies.
-/

namespace Pyzlang

/-- Python exception values reachable in the embedded code.
`lexerError` is `LexerError`, `parserError` is `ParserError`,
`keyError`/`attributeError`/`noneAttributeError`/`valueError`/
`notImplementedError` are the built-in Python exceptions raised by a missing
dict key, a missing object attribute, an attribute access on `None`, a failed
numeric conversion and `NotImplementedError`.  `internalFuelError` is not a
Python behaviour: it is the artefact of the fuel-based embedding. -/
inductive PyErr where
  | lexerError (msg : String)
  | parserError (msg : String)
  | keyError (key : String)
  | attributeError (attr : String)
  | noneAttributeError (attr : String)
  | valueError (msg : String)
  | notImplementedError
  | internalFuelError
  deriving DecidableEq, Repr

/-- The `TokenType` enumeration of src/interpreter/tokens.py (a `StrEnum`):
members listed in source order. -/
inductive TokenType where
  | ILLEGAL | EOF
  | IDENTIFIER | NUMBER | STRING
  | ASSIGN | ADD | SUB | MUL | DIV | IADD | ISUB | IMUL | IDIV
  | NOT | AND | OR | IAND | IOR
  | LT | LE | GT | GE | EQ | NEQ
  | COMMA | SEMICOLON
  | LPAREN | RPAREN | LBRACE | RBRACE | LBRACKET | RBRACKET
  | TRUE | FALSE
  | LET | RETURN | FUNCTION | IF | ELSE
  deriving DecidableEq, Repr

/-- The canonical string of each enumeration member (its `StrEnum` value). -/
def TokenType.value : TokenType → String
  | .ILLEGAL => "____ILLEGAL____"
  | .EOF => "____EOF____"
  | .IDENTIFIER => "____IDEN____"
  | .NUMBER => "____NUMBER____"
  | .STRING => "____STRING____"
  | .ASSIGN => "="
  | .ADD => "+"
  | .SUB => "-"
  | .MUL => "*"
  | .DIV => "/"
  | .IADD => "+="
  | .ISUB => "-="
  | .IMUL => "*="
  | .IDIV => "/="
  | .NOT => "!"
  | .AND => "&"
  | .OR => "|"
  | .IAND => "&="
  | .IOR => "|="
  | .LT => "<"
  | .LE => "<="
  | .GT => ">"
  | .GE => ">="
  | .EQ => "=="
  | .NEQ => "!="
  | .COMMA => ","
  | .SEMICOLON => ";"
  | .LPAREN => "("
  | .RPAREN => ")"
  | .LBRACE => "\x7b"
  | .RBRACE => "\x7d"
  | .LBRACKET => "["
  | .RBRACKET => "]"
  | .TRUE => "true"
  | .FALSE => "false"
  | .LET => "let"
  | .RETURN => "return"
  | .FUNCTION => "fn"
  | .IF => "if"
  | .ELSE => "else"

/-- All enumeration members in declaration order (`for tt in TokenType`). -/
def TokenType.all : List TokenType :=
  [.ILLEGAL, .EOF, .IDENTIFIER, .NUMBER, .STRING,
   .ASSIGN, .ADD, .SUB, .MUL, .DIV, .IADD, .ISUB, .IMUL, .IDIV,
   .NOT, .AND, .OR, .IAND, .IOR,
   .LT, .LE, .GT, .GE, .EQ, .NEQ,
   .COMMA, .SEMICOLON,
   .LPAREN, .RPAREN, .LBRACE, .RBRACE, .LBRACKET, .RBRACKET,
   .TRUE, .FALSE, .LET, .RETURN, .FUNCTION, .IF, .ELSE]

/-- Membership test `ch in ascii_letters` of the `string` module. -/
def is_ascii_letter (c : Char) : Bool :=
  ( 'a' ≤ c ∧ c ≤ 'z') ∨ ( 'A' ≤ c ∧ c ≤ 'Z')

/-- Lookup in `BUILTIN_KEYWORDS` of tokens.py:
`{tt.value: tt for tt in TokenType if tt.value[0] in ascii_letters}`,
modelled as lookup by key (the canonical values are pairwise distinct, so
the dict lookup is the first — unique — member whose value matches). -/
def BUILTIN_KEYWORDS_lookup (s : String) : Option TokenType :=
  TokenType.all.find? (fun tt =>
    (match tt.value.toList with
     | c :: _ => is_ascii_letter c
     | [] => false) && tt.value == s)

/-- Lookup in `BUILTIN_SYMBOLS` of tokens.py:
`{tt.value: tt for tt in TokenType
   if tt.value[0] not in ascii_letters and not tt.value.startswith("____")}`. -/
def BUILTIN_SYMBOLS_lookup (s : String) : Option TokenType :=
  TokenType.all.find? (fun tt =>
    (match tt.value.toList with
     | c :: _ => !is_ascii_letter c
     | [] => false) && !(tt.value.toList.take 4 == [ '_', '_', '_', '_']) && tt.value == s)

/-- The `Token` of tokens.py: the immutable pair of a category and the
matched text, stored in the attribute `literal` (the class exposes only the
properties `type` and `literal`). -/
structure Token where
  type : TokenType
  literal : String
  deriving DecidableEq, Repr

/-- Constructor `Token.__init__`: `self.__literal = literal or type.value` — an absent or
empty (falsy) literal falls back to the canonical string of the category. -/
def Token.make (type : TokenType) (literal : Option String) : Token :=
  { type := type,
    literal := match literal with
               | some s => if s = "" then type.value else s
               | none => type.value }

/-- The attribute access `token.text` performed by parselets.py and ast.py.
`Token` defines no attribute `text` (tokens.py defines only `type` and
`literal`), so in Python this access raises
`AttributeError: 'Token' object has no attribute 'text'`. -/
def Token.text (_t : Token) : Except PyErr String :=
  .error (.attributeError "text")

/-! ## Lexer (src/interpreter/lexer.py) -/

/-- Source `_is_letter`: `ch == "_" or ch in ascii_letters`. -/
def is_letter (c : Char) : Bool :=
  c = '_' ∨ is_ascii_letter c

/-- Source `_is_digit`: `ch in list("0123456789")`. -/
def is_digit (c : Char) : Bool :=
  "0123456789".toList.contains c

/-- Source `_read_string` on the suffix after the opening quote: consume verbatim
characters up to the next double quote; if the input ends first, raise
`LexerError`.  Returns the content (quotes excluded) and the suffix after
the closing quote. -/
def read_string : List Char → Except PyErr (List Char × List Char)
  | [] => .error (.lexerError "The string must be enclosed in double quotes.")
  | c :: cs =>
    if c = '"' then .ok ([], cs)
    else
      match read_string cs with
      | .error e => .error e
      | .ok (t, r) => .ok (c :: t, r)

/-- Source `_read_operator` on the operator character and the suffix after it: at
the end of the input the one-character lexeme; otherwise the two-character
lexeme exactly when the next character is `=`. -/
def read_operator (c : Char) : List Char → List Char
  | [] => [c]
  | c2 :: _ => if c2 = '=' then [c, '='] else [c]

/-- Source `_read_iden` on the first letter and the suffix after it: consume while
letter, underscore or digit.  Returns the lexeme and the remaining suffix. -/
def read_iden (c : Char) (cs : List Char) : List Char × List Char :=
  (c :: cs.takeWhile (fun ch => is_letter ch || is_digit ch),
   cs.dropWhile (fun ch => is_letter ch || is_digit ch))

/-- Source `__is_hex` on the first character and the suffix: false at the last
position of the input; otherwise the first character is `0` and the next is
`x` or `X`. -/
def is_hex (c : Char) : List Char → Bool
  | [] => false
  | c2 :: _ => if c ≠ '0' then false else (c2 = 'x' ∨ c2 = 'X')

/-- Hexadecimal digit set of `_read_number`:
`"0123456789abcdefABCDEF"`. -/
def is_hexdigit (c : Char) : Bool :=
  "0123456789abcdefABCDEF".toList.contains c

/-- Source `__check_float`: a second decimal point or a second exponent marker
raises a `LexerError`; otherwise the counters are updated. -/
def check_float (ch : Char) (cnt_point cnt_e : Nat) : Except PyErr (Nat × Nat) :=
  if ch = '.' then
    if cnt_point ≥ 1 then .error (.lexerError "The decimal point(`.`) can only appear once.")
    else .ok (1, cnt_e)
  else if ch = 'e' ∨ ch = 'E' then
    if cnt_e ≥ 1 then .error (.lexerError "The decimal point(`e`) can only appear once.")
    else .ok (cnt_point, 1)
  else .ok (cnt_point, cnt_e)

/-- The decimal loop of `_read_number` on the suffix after the leading digit.
`prev` is the previously consumed character (`seq[end_position - 1]`);
a sign is consumed only immediately after an exponent marker, any other sign
or a non-digit ends the run.  Returns the consumed characters and the
remaining suffix. -/
def read_number_dec (prev : Char) (cnt_point cnt_e : Nat) :
    List Char → Except PyErr (List Char × List Char)
  | [] => .ok ([], [])
  | ch :: cs =>
    if ch = '.' ∨ ch = 'e' ∨ ch = 'E' then
      match check_float ch cnt_point cnt_e with
      | .error e => .error e
      | .ok (p, e) =>
        match read_number_dec ch p e cs with
        | .error err => .error err
        | .ok (t, r) => .ok (ch :: t, r)
    else if ch = '-' ∨ ch = '+' then
      if prev = 'e' ∨ prev = 'E' then
        match read_number_dec ch cnt_point cnt_e cs with
        | .error err => .error err
        | .ok (t, r) => .ok (ch :: t, r)
      else .ok ([], ch :: cs)
    else if is_digit ch then
      match read_number_dec ch cnt_point cnt_e cs with
      | .error err => .error err
      | .ok (t, r) => .ok (ch :: t, r)
    else .ok ([], ch :: cs)

/-- Source `_read_number` on the leading digit and the suffix after it: the
hexadecimal branch greedily consumes hex digits after `0x`/`0X` (no
validation that any digit follows); the decimal branch runs the loop above.
Returns the matched text and the remaining suffix. -/
def read_number (c : Char) (cs : List Char) : Except PyErr (List Char × List Char) :=
  if is_hex c cs then
    match cs with
    | x :: cs2 => .ok (c :: x :: cs2.takeWhile is_hexdigit, cs2.dropWhile is_hexdigit)
    | [] => .ok ([c], [])
  else
    match read_number_dec c 0 0 cs with
    | .error e => .error e
    | .ok (t, r) => .ok (c :: t, r)

/-- Source `Lexer.__iter__`, materialised: dispatch on the current character in the
priority order of the source `match`; after exhausting the input, yield
exactly one end-of-input token.  The fuel argument only bounds the
recursion; `lexer_tokens` supplies sufficient fuel and fuel exhaustion is
proved unreachable there. -/
def lexLoop : Nat → List Char → Except PyErr (List Token)
  | 0, _ => .error .internalFuelError
  | _ + 1, [] => .ok [Token.make .EOF none]
  | fuel + 1, ch :: cs =>
    if ch = ' ' ∨ ch = '\r' ∨ ch = '\n' ∨ ch = '\t' then
      lexLoop fuel cs
    else if ch = '"' then
      match read_string cs with
      | .error e => .error e
      | .ok (lit, rest) =>
        (lexLoop fuel rest).map (fun ts => Token.make .STRING (some (String.mk lit)) :: ts)
    else if ch = '=' ∨ ch = '!' ∨ ch = '<' ∨ ch = '>' ∨ ch = '+' ∨ ch = '-' ∨
            ch = '*' ∨ ch = '/' ∨ ch = '&' ∨ ch = '|' then
      let op := read_operator ch cs
      match BUILTIN_SYMBOLS_lookup (String.mk op) with
      | none => .error (.keyError (String.mk op))
      | some tt =>
        (lexLoop fuel (cs.drop (op.length - 1))).map (fun ts => Token.make tt none :: ts)
    else if ch = ',' ∨ ch = ';' ∨ ch = '(' ∨ ch = ')' ∨ ch = '{' ∨ ch = '}' ∨
            ch = '[' ∨ ch = ']' then
      match BUILTIN_SYMBOLS_lookup (String.mk [ch]) with
      | none => .error (.keyError (String.mk [ch]))
      | some tt =>
        (lexLoop fuel cs).map (fun ts => Token.make tt none :: ts)
    else if is_letter ch then
      let (iden, rest) := read_iden ch cs
      (lexLoop fuel rest).map (fun ts =>
        Token.make ((BUILTIN_KEYWORDS_lookup (String.mk iden)).getD .IDENTIFIER)
          (some (String.mk iden)) :: ts)
    else if is_digit ch then
      match read_number ch cs with
      | .error e => .error e
      | .ok (num, rest) =>
        (lexLoop fuel rest).map (fun ts => Token.make .NUMBER (some (String.mk num)) :: ts)
    else
      .error (.lexerError ("Unknown illegal characters: " ++ String.mk [ch]))

/-- The complete token sequence of `Lexer(input)` (eagerly materialised; the
fuel `length + 1` is sufficient because every step of the scan strictly
advances the position). -/
def lexer_tokens (input : String) : Except PyErr (List Token) :=
  lexLoop (input.toList.length + 1) input.toList

/-! ## AST (src/interpreter/ast.py)

The expression class hierarchy becomes one inductive type; the constructor
names map to the source classes:
`iden` = `IdenExpression`, `intLit` = `IntLiteralExpression`,
`floatLit` = `FloatLiteralExpression`, `boolLit` = `BoolLiteralExpression`,
`strLit` = `StrLiteralExpression`, `unary` = `UnaryOperatorExpression`,
`binary` = `BinaryOperatorExpression`, `assign` = `AssignExpression`.
`ConditionalExpression` is never constructed by the wired-in parser (no
parselet produces it) and is omitted.  A float literal carries the raw
matched text: the claims never touch float values, and the parser checks the
text with the model of Python float conversion before building the node. -/

inductive Expression where
  | iden (iden : String)
  | intLit (literal : Int)
  | floatLit (text : String)
  | boolLit (literal : Bool)
  | strLit (literal : String)
  | unary (operator : Token) (right : Expression)
  | binary (left : Expression) (operator : Token) (right : Expression)
  | assign (name : String) (operator : Token) (right : Expression)
  deriving DecidableEq, Repr

/-- Statements: only `ExprStatement` is produced by the wired-in parser. -/
inductive Statement where
  | exprStatement (expr : Expression)
  deriving DecidableEq, Repr

/-- Programs: the ordered sequence of statements. -/
structure Program where
  stmts : List Statement
  deriving DecidableEq, Repr

/-- The `__str__` pretty-printer of the expression classes, parameterised by
the behaviour of the attribute access `operator.text` (`text_attr`); the
faithful instantiation is `Token.text`, which raises.
Literals render as `str(value)` (`True`/`False` for booleans, double quotes
around strings); unary/binary/assign render fully parenthesised with
single-space infix padding.  Float rendering is the raw matched text (the
source renders `str(float(text))`; no claim depends on float formatting). -/
def Expression.render (text_attr : Token → Except PyErr String) :
    Expression → Except PyErr String
  | .iden i => .ok i
  | .intLit n => .ok (toString n)
  | .floatLit t => .ok t
  | .boolLit b => .ok (if b then "True" else "False")
  | .strLit s => .ok ("\"" ++ s ++ "\"")
  | .unary op right => do
      let t ← text_attr op
      let r ← Expression.render text_attr right
      .ok ("(" ++ t ++ r ++ ")")
  | .binary left op right => do
      let l ← Expression.render text_attr left
      let t ← text_attr op
      let r ← Expression.render text_attr right
      .ok ("(" ++ l ++ " " ++ t ++ " " ++ r ++ ")")
  | .assign name op right => do
      let t ← text_attr op
      let r ← Expression.render text_attr right
      .ok ("(" ++ name ++ " " ++ t ++ " " ++ r ++ ")")

/-- Source `ExprStatement.__str__`: the expression followed by the terminator. -/
def Statement.render (text_attr : Token → Except PyErr String) :
    Statement → Except PyErr String
  | .exprStatement e => do
      let s ← Expression.render text_attr e
      .ok (s ++ ";")

/-- Source `Program.__str__`: statements joined by newlines. -/
def Program.render (text_attr : Token → Except PyErr String) (p : Program) :
    Except PyErr String := do
  let ss ← p.stmts.mapM (Statement.render text_attr)
  .ok (String.intercalate "\n" ss)

/-! ## Parselets (src/interpreter/parselets.py) -/

/-- The `Precedence` `IntEnum`.  `PREF` is the member spelled P-R-E-F-I-X in
the source (renamed here for lexical reasons only). -/
inductive Precedence where
  | DEFAULT | ASSIGN_BELOW | ASSIGN | CONDITIONAL | LOGICAL | EQUALS
  | LEGE | ADDSUB | MULDIV | PREF | CALL
  deriving DecidableEq, Repr

/-- The integer values of the `IntEnum` members. -/
def Precedence.val : Precedence → Int
  | .DEFAULT => -1
  | .ASSIGN_BELOW => 0
  | .ASSIGN => 1
  | .CONDITIONAL => 2
  | .LOGICAL => 3
  | .EQUALS => 4
  | .LEGE => 5
  | .ADDSUB => 6
  | .MULDIV => 7
  | .PREF => 8
  | .CALL => 9

/-- The concrete handler classes bound in the two standard registries.
`HeadParselet` models the expression-starting handler interface of the
source (its class name there starts an expression, i.e. the "P" interface);
the constructors map to `IdenParselet`, `LiteralParselet`,
`UnaryOperatorParselet` and `GroupParselet`. -/
inductive HeadParselet where
  | iden | literal | unaryOperator | group
  deriving DecidableEq, Repr

/-- The expression-extending handler interface of the source; constructors
map to `BinaryOperatorParselet(precedence)` and `AssignParselet`. -/
inductive TailParselet where
  | binaryOperator (precedence : Precedence)
  | assign
  deriving DecidableEq, Repr

/-- Source `standard_prefix_parselets()`: the seeded category-to-handler mapping
for handlers that start an expression. -/
def standard_head_parselets : TokenType → Option HeadParselet
  | .IDENTIFIER => some .iden
  | .NUMBER => some .literal
  | .STRING => some .literal
  | .TRUE => some .literal
  | .FALSE => some .literal
  | .ADD => some .unaryOperator
  | .SUB => some .unaryOperator
  | .NOT => some .unaryOperator
  | .LPAREN => some .group
  | _ => none

/-- Source `standard_infix_parselets()`: the seeded category-to-handler mapping for
handlers that extend an expression, each with its binding precedence. -/
def standard_tail_parselets : TokenType → Option TailParselet
  | .ADD => some (.binaryOperator .ADDSUB)
  | .SUB => some (.binaryOperator .ADDSUB)
  | .MUL => some (.binaryOperator .MULDIV)
  | .DIV => some (.binaryOperator .MULDIV)
  | .LT => some (.binaryOperator .LEGE)
  | .LE => some (.binaryOperator .LEGE)
  | .GT => some (.binaryOperator .LEGE)
  | .GE => some (.binaryOperator .LEGE)
  | .EQ => some (.binaryOperator .EQUALS)
  | .NEQ => some (.binaryOperator .EQUALS)
  | .AND => some (.binaryOperator .LOGICAL)
  | .OR => some (.binaryOperator .LOGICAL)
  | .ASSIGN => some .assign
  | .IADD => some .assign
  | .ISUB => some .assign
  | .IMUL => some .assign
  | .IDIV => some .assign
  | .IAND => some .assign
  | .IOR => some .assign
  | _ => none

/-- The `precedence` property of the extending handlers: the constructor
argument for a binary operator, `Precedence.ASSIGN` for assignment. -/
def TailParselet.precedence : TailParselet → Precedence
  | .binaryOperator p => p
  | .assign => .ASSIGN

/-- Numeric value of one character for `int(s, base)`. -/
def digit_val (c : Char) : Option Nat :=
  if '0' ≤ c ∧ c ≤ '9' then some (c.toNat - '0'.toNat)
  else if 'a' ≤ c ∧ c ≤ 'f' then some (c.toNat - 'a'.toNat + 10)
  else if 'A' ≤ c ∧ c ≤ 'F' then some (c.toNat - 'A'.toNat + 10)
  else none

/-- Digit fold of `int(s, base)`. -/
def py_int_digits (base : Nat) : List Char → Nat → Option Nat
  | [], acc => some acc
  | c :: rest, acc =>
    match digit_val c with
    | some v => if v < base then py_int_digits base rest (acc * base + v) else none
    | none => none

/-- Python `int(s, base)` for the texts reachable from the lexer (no leading
sign or whitespace): with base 16 an optional `0x`/`0X` prefix is accepted;
at least one digit is required and every character must be a digit of the
base, otherwise `ValueError` is raised. -/
def py_int (cs : List Char) (base : Nat) : Except PyErr Int :=
  let body := if base = 16 ∧ (cs.take 2 = [ '0', 'x'] ∨ cs.take 2 = [ '0', 'X'])
              then cs.drop 2 else cs
  match body with
  | [] => .error (.valueError ("invalid literal for int with base: " ++ String.mk cs))
  | _ :: _ =>
    match py_int_digits base body 0 with
    | some n => .ok (Int.ofNat n)
    | none => .error (.valueError ("invalid literal for int with base: " ++ String.mk cs))

/-- Validity of Python `float(s)` for texts over the lexer's number
alphabet: optional sign, digits with at most one decimal point and at least
one digit in the mantissa, then an optional exponent part `e`/`E`, optional
sign, at least one digit, and nothing after it. -/
def py_float_valid (cs : List Char) : Bool :=
  let cs := match cs with
            | c :: rest => if c = '+' ∨ c = '-' then rest else c :: rest
            | [] => []
  let d1 := cs.takeWhile is_digit
  let cs := cs.dropWhile is_digit
  let (d2, cs) := match cs with
                  | '.' :: r => (r.takeWhile is_digit, r.dropWhile is_digit)
                  | _ => ([], cs)
  if d1.length + d2.length = 0 then false
  else
    match cs with
    | [] => true
    | e :: r =>
      if e = 'e' ∨ e = 'E' then
        let r := match r with
                 | c :: r2 => if c = '+' ∨ c = '-' then r2 else c :: r2
                 | [] => []
        decide (1 ≤ (r.takeWhile is_digit).length) && (r.dropWhile is_digit == [])
      else false

/-- Python `float(s)` modelled only up to success or `ValueError`; the value
itself (floating point) is not modelled and the raw text is kept. -/
def py_float_check (s : String) : Except PyErr Unit :=
  if py_float_valid s.toList then .ok ()
  else .error (.valueError ("could not convert string to float: " ++ s))

/-! ## Parser engine (src/interpreter/parser.py)

The parser state is the cursor pair `curr_token`/`peek_token` plus the not
yet pulled remainder of the (materialised) token stream.  The
precedence-climbing loop of `Parser.parse_expression` is split, as in the
source, into the head-handler invocation and the climbing `while` loop
(`climb` below); the recursive operand parses performed by the handlers
receive the one-level-smaller-fuel `parse_expression` as the argument `pe`,
so that every definition is a plain structural recursion on its fuel. -/

structure ParserState where
  rest : List Token
  curr_token : Option Token
  peek_token : Option Token
  deriving DecidableEq, Repr

/-- Model of the source method that initialises the parser cursor: pull the first two tokens into the cursor. -/
def parser_init (tokens : List Token) : ParserState :=
  { rest := tokens.drop 2,
    curr_token := tokens.head?,
    peek_token := (tokens.drop 1).head? }

/-- Source `Parser.consume_next`: `curr_token = peek_token`,
`peek_token = next(tokens, None)`. -/
def consume_next (st : ParserState) : ParserState :=
  { rest := st.rest.tail,
    curr_token := st.peek_token,
    peek_token := st.rest.head? }

/-- Attribute access on `self.curr_token` (`.type` or `.text`): on `None`
Python raises `AttributeError` naming the NoneType. -/
def curr_token_get (st : ParserState) : Except PyErr Token :=
  match st.curr_token with
  | some t => .ok t
  | none => .error (.noneAttributeError "curr_token")

/-- Attribute access `self.peek_token.type`. -/
def peek_token_type (st : ParserState) : Except PyErr TokenType :=
  match st.peek_token with
  | some t => .ok t.type
  | none => .error (.noneAttributeError "peek_token")

/-- The `parse` methods of the four concrete handlers that start an
expression (`IdenParselet.parse`, `LiteralParselet.parse`,
`UnaryOperatorParselet.parse`, `GroupParselet.parse`).  `pe` is the
recursive entry into `Parser.parse_expression`. -/
def run_head (text_attr : Token → Except PyErr String)
    (pe : ParserState → Precedence → Except PyErr (Expression × ParserState))
    (hp : HeadParselet) (st : ParserState) (token : Token) :
    Except PyErr (Expression × ParserState) :=
  match hp with
  | .iden => do
      let t ← text_attr token
      .ok (.iden t, st)
  | .literal =>
      match token.type with
      | .STRING => do
          let t ← text_attr token
          .ok (.strLit t, st)
      | .TRUE => .ok (.boolLit true, st)
      | .FALSE => .ok (.boolLit false, st)
      | .NUMBER => do
          let number_txt ← text_attr token
          let cs := number_txt.toList
          if cs.contains '.' ∨ cs.contains 'e' ∨ cs.contains 'E' then do
            let _ ← py_float_check number_txt
            .ok (.floatLit number_txt, st)
          else if cs.take 2 = [ '0', 'x'] ∨ cs.take 2 = [ '0', 'X'] then do
            let n ← py_int cs 16
            .ok (.intLit n, st)
          else do
            let n ← py_int cs 10
            .ok (.intLit n, st)
      | _ => .error .notImplementedError
  | .unaryOperator => do
      let st := consume_next st
      let (right, st) ← pe st Precedence.PREF
      .ok (.unary token right, st)
  | .group => do
      let st := consume_next st
      let (expr, st) ← pe st Precedence.DEFAULT
      let st := consume_next st
      let curr ← curr_token_get st
      let t ← text_attr curr
      if t = TokenType.RPAREN.value then .ok (expr, st)
      else .error (.parserError "The grouped expression must end with a right parenthese.")

/-- The `parse` methods of the two concrete handlers that extend an
expression (`BinaryOperatorParselet.parse`, `AssignParselet.parse`).
In `AssignParselet.parse`, when the left operand is not an identifier the
source raises `ParserError` with an f-string that interpolates `self.left`;
the parselet object has no attribute `left`, so evaluating the f-string
raises `AttributeError` before the `ParserError` is constructed. -/
def run_tail (_text_attr : Token → Except PyErr String)
    (pe : ParserState → Precedence → Except PyErr (Expression × ParserState))
    (tp : TailParselet) (st : ParserState) (left : Expression) (token : Token) :
    Except PyErr (Expression × ParserState) :=
  match tp with
  | .binaryOperator precedence => do
      let st := consume_next st
      let (right, st) ← pe st precedence
      .ok (.binary left token right, st)
  | .assign =>
      match left with
      | .iden name => do
          let st := consume_next st
          let (right, st) ← pe st Precedence.ASSIGN_BELOW
          .ok (.assign name token right, st)
      | _ => .error (.attributeError "left")

/-- The climbing `while` loop of `Parser.parse_expression`: while an
extending handler exists for the lookahead token and the caller's minimum
precedence is strictly below the handler's bound precedence, advance onto
the operator and fold it into `left`. -/
def climb (text_attr : Token → Except PyErr String)
    (pe : ParserState → Precedence → Except PyErr (Expression × ParserState)) :
    Nat → ParserState → Expression → Precedence → Except PyErr (Expression × ParserState)
  | 0, _, _, _ => .error .internalFuelError
  | fuel + 1, st, left, precedence => do
      let pt ← peek_token_type st
      match standard_tail_parselets pt with
      | none => .ok (left, st)
      | some tp =>
        if precedence.val < tp.precedence.val then do
          let st := consume_next st
          let curr ← curr_token_get st
          let (left2, st) ← run_tail text_attr pe tp st left curr
          climb text_attr pe fuel st left2 precedence
        else .ok (left, st)

/-- Source `Parser.parse_expression`: look up a starting handler for the current
token (its absence is the fatal parse error), invoke it, then run the
climbing loop. -/
def parse_expression (text_attr : Token → Except PyErr String) :
    Nat → ParserState → Precedence → Except PyErr (Expression × ParserState)
  | 0, _, _ => .error .internalFuelError
  | fuel + 1, st, precedence => do
      let curr ← curr_token_get st
      match standard_head_parselets curr.type with
      | none => .error (.parserError ("Could not parse " ++ curr.literal))
      | some hp => do
          let pe := parse_expression text_attr fuel
          let (left, st) ← run_head text_attr pe hp st curr
          climb text_attr pe fuel st left precedence

/-- Source `Parser.__end_statement` with the default expected terminator:
advance, then require the semicolon. -/
def end_statement (st : ParserState) : Except PyErr ParserState :=
  let st := consume_next st
  match st.curr_token with
  | some t =>
      if t.type = TokenType.SEMICOLON then .ok st
      else .error (.parserError ("Statement must end with `" ++ TokenType.SEMICOLON.value ++ "`."))
  | none => .error (.parserError ("Statement must end with `" ++ TokenType.SEMICOLON.value ++ "`."))

/-- Source `Parser.parse_statement` together with `Parser._parse_expr_stmt`: a bare
terminator is an empty statement (no node); anything else parses one
expression at the lowest precedence and requires the terminator. -/
def parse_statement (text_attr : Token → Except PyErr String) (fuel : Nat)
    (st : ParserState) : Except PyErr (Option Statement × ParserState) := do
  let curr ← curr_token_get st
  match curr.type with
  | .SEMICOLON => .ok (none, st)
  | _ => do
      let (expr, st) ← parse_expression text_attr fuel st Precedence.DEFAULT
      let st ← end_statement st
      .ok (some (.exprStatement expr), st)

/-- The statement loop of `Parser.parse`: until the current token is the
end-of-input marker, parse one statement, append it when non-empty, and
advance past the terminator. -/
def parse_loop (text_attr : Token → Except PyErr String) :
    Nat → ParserState → List Statement → Except PyErr (List Statement)
  | 0, _, _ => .error .internalFuelError
  | fuel + 1, st, stmts =>
    match st.curr_token with
    | none => .ok stmts
    | some t =>
      if t.type = TokenType.EOF then .ok stmts
      else do
        let (stmt, st) ← parse_statement text_attr fuel st
        let stmts := match stmt with
                     | some s => stmts ++ [s]
                     | none => stmts
        let st := consume_next st
        parse_loop text_attr fuel st stmts

/-- The whole pipeline `Parser(Lexer(input)).parse()`, parameterised by the behaviour of the
attribute access `token.text`.  The token stream is materialised up front;
on the inputs settled below this is observationally equal to the lazy
generator, because every token before the scan's failure point (if any) is
pulled.  The fuel is amply sufficient for the chains the claims evaluate. -/
def parse_program (text_attr : Token → Except PyErr String) (input : String) :
    Except PyErr Program := do
  let tokens ← lexer_tokens input
  let st := parser_init tokens
  let stmts ← parse_loop text_attr (tokens.length + 8) st []
  .ok { stmts := stmts }

/-- The program as executed: `token.text` raises `AttributeError`. -/
def parse (input : String) : Except PyErr Program :=
  parse_program Token.text input

/-- The attribute access the source evidently intends: the token's stored
text, i.e. the `literal` attribute (the spec calls the payload `text`; the
draft in src/tmp reads `token.literal` at the corresponding places).  Used
only in supporting theorems that document the intended behaviour next to
the `code_bug` findings; never in a claim's own verdict about the executed
code. -/
def text_repaired (t : Token) : Except PyErr String :=
  .ok t.literal

/-- The parser with only the `text` attribute slip repaired. -/
def parse_repaired (input : String) : Except PyErr Program :=
  parse_program text_repaired input

/-- Parse with the repaired attribute access and render the resulting
program back to its canonical text. -/
def parse_and_render_repaired (input : String) : Except PyErr String := do
  let p ← parse_repaired input
  Program.render text_repaired p

/-- The operator set of scanning rule 3 of `Lexer.__iter__`. -/
def operator_chars : List Char :=
  [ '=', '!', '<', '>', '+', '-', '*', '/', '&', '|']

/-- Decidable equality of results, so that concrete runs of the embedded
code can be checked by kernel evaluation. -/
instance exceptDecidableEq {ε α : Type} [DecidableEq ε] [DecidableEq α] :
    DecidableEq (Except ε α)
  | .error a, .error b =>
    if h : a = b then .isTrue (by rw [h])
    else .isFalse (by intro hc; cases hc; exact h rfl)
  | .error _, .ok _ => .isFalse (by intro hc; cases hc)
  | .ok _, .error _ => .isFalse (by intro hc; cases hc)
  | .ok a, .ok b =>
    if h : a = b then .isTrue (by rw [h])
    else .isFalse (by intro hc; cases hc; exact h rfl)

/-! ## Theorems -/

/-- C1: the claim states that `Parser.parse` on `"1 + 2 * 3;"` yields a
one-statement program rendering `"(1 + (2 * 3));"` and on `"(1 + 2) * 3;"`
one rendering `"((1 + 2) * 3);"`.  On the code as written both parses
instead raise `AttributeError` — `LiteralParselet.parse` reads
`token.text`, an attribute `Token` does not define (tokens.py exposes
`type` and `literal` only) — so no `Program` is ever produced.  This
theorem evaluates the executed code at both inputs. -/
theorem claim_C1_parse_raises_attribute_error :
    parse "1 + 2 * 3;" = .error (.attributeError "text") ∧
    parse "(1 + 2) * 3;" = .error (.attributeError "text") := by
  exact ⟨by decide, by decide⟩

/-- With only the attribute slip `token.text` read as the stored token text
(`literal`), the two inputs of C1 parse and render exactly as the claim
states: the climbing loop does bind MULDIV tighter than ADDSUB and grouping
parentheses override it. -/
theorem support_C1_intended_precedence :
    parse_and_render_repaired "1 + 2 * 3;" = .ok "(1 + (2 * 3));" ∧
    parse_and_render_repaired "(1 + 2) * 3;" = .ok "((1 + 2) * 3);" := by
  exact ⟨by decide, by decide⟩

/-- C2: the claim states that `"1 & 2 == 2;"` parses as `(1 & (2 == 2))`.
On the code as written the parse raises `AttributeError("text")` at the
first literal, so no tree is produced at all.  This theorem evaluates the
executed code at the claimed input. -/
theorem claim_C2_parse_raises_attribute_error :
    parse "1 & 2 == 2;" = .error (.attributeError "text") := by
  decide

/-- The precedence table itself does order LOGICAL strictly below EQUALS
and LEGE, with `&`/`|` bound at LOGICAL and `==`/`!=` at EQUALS and
`<`,`<=`,`>`,`>=` at LEGE, and with the attribute slip repaired the parse
yields exactly the tree the claim describes. -/
theorem support_C2_intended_logical_below_equals :
    parse_and_render_repaired "1 & 2 == 2;" = .ok "(1 & (2 == 2));" ∧
    Precedence.LOGICAL.val < Precedence.EQUALS.val ∧
    Precedence.LOGICAL.val < Precedence.LEGE.val ∧
    standard_tail_parselets .AND = some (.binaryOperator .LOGICAL) ∧
    standard_tail_parselets .OR = some (.binaryOperator .LOGICAL) ∧
    standard_tail_parselets .EQ = some (.binaryOperator .EQUALS) ∧
    standard_tail_parselets .NEQ = some (.binaryOperator .EQUALS) ∧
    standard_tail_parselets .LT = some (.binaryOperator .LEGE) ∧
    standard_tail_parselets .LE = some (.binaryOperator .LEGE) ∧
    standard_tail_parselets .GT = some (.binaryOperator .LEGE) ∧
    standard_tail_parselets .GE = some (.binaryOperator .LEGE) := by
  refine ⟨by decide, by decide, by decide, rfl, rfl, rfl, rfl, rfl, rfl, rfl, rfl⟩

/-- C3: the claim states that `"a = b = 1;"` parses to a tree rendering
`"(a = (b = 1));"`.  On the code as written the parse raises
`AttributeError("text")` already at the identifier `a`
(`IdenParselet.parse` reads `token.text`), so no tree is produced.  This
theorem evaluates the executed code at the claimed input. -/
theorem claim_C3_parse_raises_attribute_error :
    parse "a = b = 1;" = .error (.attributeError "text") := by
  decide

/-- With the attribute slip repaired, assignment is right-associative
purely through the `ASSIGN_BELOW` bound used for the right-hand parse, and
the claimed rendering is produced. -/
theorem support_C3_intended_right_assoc :
    parse_and_render_repaired "a = b = 1;" = .ok "(a = (b = 1));" ∧
    Precedence.ASSIGN_BELOW.val < Precedence.ASSIGN.val := by
  exact ⟨by decide, by decide⟩

/-- C4: the claim states that for every nonempty string `h` of hex digits,
parsing `"0x" + h + ";"` yields an integer literal equal to
`int(h, base=16)`.  On the code as written every such parse raises
`AttributeError("text")` in `LiteralParselet.parse` before any conversion
happens.  This theorem evaluates the executed code at two such inputs. -/
theorem claim_C4_parse_raises_attribute_error :
    parse "0x1f;" = .error (.attributeError "text") ∧
    parse "0xe;" = .error (.attributeError "text") := by
  exact ⟨by decide, by decide⟩

/-- With the attribute slip repaired, hex literals without the digits
`e`/`E` do convert with radix 16 (`0x1f` is 31), but the claim still fails
for hex digit strings containing `e` or `E`: the float test
`"e" in number_txt` precedes the radix test, so `"0xe;"` is routed to
`float("0xe")`, which raises `ValueError` — the universal claim is wrong
about the code even after the repair. -/
theorem support_C4_intended_hex :
    parse_repaired "0x1f;" = .ok { stmts := [.exprStatement (.intLit 31)] } ∧
    parse_repaired "0x2B;" = .ok { stmts := [.exprStatement (.intLit 43)] } ∧
    parse_repaired "0xe;" = .error (.valueError "could not convert string to float: 0xe") := by
  exact ⟨by decide, by decide, by decide⟩

/-- C5: the claim states that an assignment whose left side is not a bare
identifier, e.g. `"1 = 2;"`, fails with the parser's syntax-error kind
(`ParserError`).  The parse does fail and no `Program` is produced, but not
with `ParserError`: the executed code raises `AttributeError("text")` at
the literal `1` before `AssignParselet.parse` even runs; and the
`ParserError` branch itself interpolates the non-existent `self.left`, so
it too would raise `AttributeError` rather than `ParserError`.  This
theorem evaluates the executed code at the claimed input. -/
theorem claim_C5_parse_raises_attribute_error :
    parse "1 = 2;" = .error (.attributeError "text") := by
  decide

/-- Even with the `token.text` slip repaired, `"1 = 2;"` reaches the
non-identifier branch of `AssignParselet.parse` and raises
`AttributeError("left")` (from the f-string interpolating `self.left`),
not `ParserError`. -/
theorem support_C5_attribute_error_left :
    parse_repaired "1 = 2;" = .error (.attributeError "left") := by
  decide

/-- C6: the claim quantifies over sources whose parse succeeds and states
that rendering and re-parsing reproduces the tree.  On the code as written
no parse of the supported expression subset ever succeeds — every path
through `IdenParselet.parse`/`LiteralParselet.parse` raises
`AttributeError("text")`, and the renderer itself reads `operator.text` —
so the round-trip property has no witness at all.  This theorem evaluates
the executed code at a minimal member of the subset. -/
theorem claim_C6_parse_raises_attribute_error :
    parse "1 + 2;" = .error (.attributeError "text") := by
  decide

/-- With the attribute slip repaired, the round trip does hold on
representative members of the subset: the canonical text re-parses to a
structurally identical tree. -/
theorem support_C6_intended_roundtrip :
    (parse_and_render_repaired "1 + 2 * 3;" = .ok "(1 + (2 * 3));" ∧
     parse_repaired "(1 + (2 * 3));" = parse_repaired "1 + 2 * 3;" ∧
     parse_and_render_repaired "(1 + (2 * 3));" = .ok "(1 + (2 * 3));") ∧
    (parse_and_render_repaired "a = b = -x;" = .ok "(a = (b = (-x)));" ∧
     parse_repaired "(a = (b = (-x)));" = parse_repaired "a = b = -x;") ∧
    (parse_and_render_repaired "!true == false;" = .ok "((!True) == False);" ∧
     parse_and_render_repaired "((!True) == False);" = .ok "((!True) == False);") := by
  refine ⟨⟨by decide, by decide, by decide⟩, ⟨by decide, by decide⟩, ⟨by decide, by decide⟩⟩

/-- C7: an unterminated string literal raises `LexerError`, and a second
decimal point or second exponent marker inside one numeral raises
`LexerError` instead of silently ending the numeric run.  Evaluated on the
spec's own examples (and `1e2e3` for the second exponent marker). -/
theorem claim_C7_lexical_errors :
    lexer_tokens "\"abc" =
      .error (.lexerError "The string must be enclosed in double quotes.") ∧
    lexer_tokens "1.2.3" =
      .error (.lexerError "The decimal point(`.`) can only appear once.") ∧
    lexer_tokens "1e2e3" =
      .error (.lexerError "The decimal point(`e`) can only appear once.") := by
  exact ⟨by decide, by decide, by decide⟩

/-- C10: a `Token` constructed with an explicitly supplied but empty text
falls back to the category's canonical string (the `literal or type.value`
default), so lexing the empty string literal source produces a STRING token
whose stored text is `"____STRING____"`; any non-empty supplied text is
preserved verbatim. -/
theorem claim_C10_empty_literal_fallback :
    Token.make .STRING (some "") = { type := .STRING, literal := "____STRING____" } ∧
    (∀ (tt : TokenType) (s : String), s ≠ "" →
      Token.make tt (some s) = { type := tt, literal := s }) ∧
    lexer_tokens "\"\"" =
      .ok [{ type := .STRING, literal := "____STRING____" },
           { type := .EOF, literal := "____EOF____" }] := by
  refine ⟨rfl, ?_, rfl⟩
  intro tt s h
  simp [Token.make, h]

/-- Witness for C10 at the concrete non-empty text `"42"`. -/
theorem claim_C10_witness :
    Token.make TokenType.NUMBER (some "42") =
      { type := TokenType.NUMBER, literal := "42" } :=
  claim_C10_empty_literal_fallback.2.1 TokenType.NUMBER "42" (by decide)

/-- Unfolding step of the lexer at an operator character. -/
theorem lexLoop_operator_step (ch : Char) (cs : List Char) (fuel : Nat)
    (hws : ¬(ch = ' ' ∨ ch = '\r' ∨ ch = '\n' ∨ ch = '\t'))
    (hq : ¬ch = '"')
    (hop : ch = '=' ∨ ch = '!' ∨ ch = '<' ∨ ch = '>' ∨ ch = '+' ∨ ch = '-' ∨
           ch = '*' ∨ ch = '/' ∨ ch = '&' ∨ ch = '|')
    (tt : TokenType)
    (hlk : BUILTIN_SYMBOLS_lookup (String.mk (read_operator ch cs)) = some tt) :
    lexLoop (fuel + 1) (ch :: cs) =
      (lexLoop fuel (cs.drop ((read_operator ch cs).length - 1))).map
        (fun ts => Token.make tt none :: ts) := by
  simp only [lexLoop, if_neg hws, if_neg hq, if_pos hop, hlk]

/-- C8: maximal munch with one character of lookahead — for every position
where the lexer sees a character of the operator set, if the immediately
following character is `=` the two-character lexeme is taken, otherwise
(including at end of input) the one-character lexeme; every lexeme reachable
this way is present in the symbol table, and the lexer emits exactly the
corresponding token and advances past the lexeme. -/
theorem claim_C8_maximal_munch (c : Char) (h : c ∈ operator_chars)
    (rest : List Char) (fuel : Nat) :
    ((rest.head? = some '=' → read_operator c rest = [c, '=']) ∧
     (rest.head? ≠ some '=' → read_operator c rest = [c])) ∧
    ∃ tt : TokenType,
      BUILTIN_SYMBOLS_lookup (String.mk (read_operator c rest)) = some tt ∧
      lexLoop (fuel + 1) (c :: rest) =
        (lexLoop fuel (rest.drop ((read_operator c rest).length - 1))).map
          (fun ts => Token.make tt none :: ts) := by
  have hop : c = '=' ∨ c = '!' ∨ c = '<' ∨ c = '>' ∨ c = '+' ∨ c = '-' ∨
      c = '*' ∨ c = '/' ∨ c = '&' ∨ c = '|' := by
    simpa [operator_chars] using h
  rcases rest with _ | ⟨c2, r⟩
  · refine ⟨⟨fun hx => by simp at hx, fun _ => rfl⟩, ?_⟩
    rcases hop with rfl | rfl | rfl | rfl | rfl | rfl | rfl | rfl | rfl | rfl <;>
      exact ⟨_, rfl, lexLoop_operator_step _ _ _ (by decide) (by decide) (by decide) _ rfl⟩
  · by_cases hc2 : c2 = '='
    · subst hc2
      refine ⟨⟨fun _ => rfl, fun hx => absurd rfl hx⟩, ?_⟩
      rcases hop with rfl | rfl | rfl | rfl | rfl | rfl | rfl | rfl | rfl | rfl <;>
        exact ⟨_, rfl, lexLoop_operator_step _ _ _ (by decide) (by decide) (by decide) _ rfl⟩
    · have hro : read_operator c (c2 :: r) = [c] := by
        simp [read_operator, hc2]
      refine ⟨⟨fun hx => absurd (by simpa using hx) hc2, fun _ => hro⟩, ?_⟩
      rcases hop with rfl | rfl | rfl | rfl | rfl | rfl | rfl | rfl | rfl | rfl
      · exact ⟨.ASSIGN, by rw [hro]; decide, by simpa [hro] using (lexLoop_operator_step '=' (c2 :: r) fuel (by decide) (by decide) (by decide) .ASSIGN (by rw [hro]; decide))⟩
      · exact ⟨.NOT, by rw [hro]; decide, by simpa [hro] using (lexLoop_operator_step '!' (c2 :: r) fuel (by decide) (by decide) (by decide) .NOT (by rw [hro]; decide))⟩
      · exact ⟨.LT, by rw [hro]; decide, by simpa [hro] using (lexLoop_operator_step '<' (c2 :: r) fuel (by decide) (by decide) (by decide) .LT (by rw [hro]; decide))⟩
      · exact ⟨.GT, by rw [hro]; decide, by simpa [hro] using (lexLoop_operator_step '>' (c2 :: r) fuel (by decide) (by decide) (by decide) .GT (by rw [hro]; decide))⟩
      · exact ⟨.ADD, by rw [hro]; decide, by simpa [hro] using (lexLoop_operator_step '+' (c2 :: r) fuel (by decide) (by decide) (by decide) .ADD (by rw [hro]; decide))⟩
      · exact ⟨.SUB, by rw [hro]; decide, by simpa [hro] using (lexLoop_operator_step '-' (c2 :: r) fuel (by decide) (by decide) (by decide) .SUB (by rw [hro]; decide))⟩
      · exact ⟨.MUL, by rw [hro]; decide, by simpa [hro] using (lexLoop_operator_step '*' (c2 :: r) fuel (by decide) (by decide) (by decide) .MUL (by rw [hro]; decide))⟩
      · exact ⟨.DIV, by rw [hro]; decide, by simpa [hro] using (lexLoop_operator_step '/' (c2 :: r) fuel (by decide) (by decide) (by decide) .DIV (by rw [hro]; decide))⟩
      · exact ⟨.AND, by rw [hro]; decide, by simpa [hro] using (lexLoop_operator_step '&' (c2 :: r) fuel (by decide) (by decide) (by decide) .AND (by rw [hro]; decide))⟩
      · exact ⟨.OR, by rw [hro]; decide, by simpa [hro] using (lexLoop_operator_step '|' (c2 :: r) fuel (by decide) (by decide) (by decide) .OR (by rw [hro]; decide))⟩

/-- Witness for C8 at the operator character `+` followed by `=1`. -/
theorem claim_C8_witness :
    ((([ '=', '1'] : List Char).head? = some '=' →
        read_operator '+' [ '=', '1'] = [ '+', '=']) ∧
     (([ '=', '1'] : List Char).head? ≠ some '=' →
        read_operator '+' [ '=', '1'] = [ '+'])) ∧
    ∃ tt : TokenType,
      BUILTIN_SYMBOLS_lookup (String.mk (read_operator '+' [ '=', '1'])) = some tt ∧
      lexLoop (0 + 1) ('+' :: [ '=', '1']) =
        (lexLoop 0 (([ '=', '1'] : List Char).drop
            ((read_operator '+' [ '=', '1']).length - 1))).map
          (fun ts => Token.make tt none :: ts) :=
  claim_C8_maximal_munch '+' (by decide) [ '=', '1'] 0

/-- The category stored by the token constructor. -/
theorem Token.make_type (tt : TokenType) (o : Option String) :
    (Token.make tt o).type = tt :=
  rfl

/-- Inversion of `Except.map` on a success. -/
theorem except_map_ok {ε α β : Type} (f : α → β) (x : Except ε α) (b : β)
    (h : Except.map f x = .ok b) : ∃ a, x = .ok a ∧ b = f a := by
  cases x with
  | error e => simp [Except.map] at h
  | ok a => exact ⟨a, rfl, by simpa [Except.map] using h.symm⟩

/-- Inversion of `Except.map` on an error. -/
theorem except_map_error {ε α β : Type} (f : α → β) (x : Except ε α) (e : ε)
    (h : Except.map f x = .error e) : x = .error e := by
  cases x with
  | error e2 => simpa [Except.map] using h
  | ok a => simp [Except.map] at h

/-- No symbol-table entry is the end-of-input category (its canonical
string starts with four underscores and is filtered out). -/
theorem symbols_lookup_ne_eof (s : String) (tt : TokenType)
    (h : BUILTIN_SYMBOLS_lookup s = some tt) : tt ≠ TokenType.EOF := by
  intro hEq
  subst hEq
  have hp := List.find?_some h
  simp only [Bool.and_eq_true] at hp
  exact absurd hp.1.2 (by decide)

/-- No keyword-table entry is the end-of-input category (its canonical
string does not start with an ascii letter). -/
theorem keywords_lookup_ne_eof (s : String) (tt : TokenType)
    (h : BUILTIN_KEYWORDS_lookup s = some tt) : tt ≠ TokenType.EOF := by
  intro hEq
  subst hEq
  have hp := List.find?_some h
  simp only [Bool.and_eq_true] at hp
  exact absurd hp.1 (by decide)

/-- The category of an identifier-or-keyword token is never end-of-input. -/
theorem keywords_getD_ne_eof (s : String) :
    (BUILTIN_KEYWORDS_lookup s).getD TokenType.IDENTIFIER ≠ TokenType.EOF := by
  cases hk : BUILTIN_KEYWORDS_lookup s with
  | none => simp only [Option.getD_none]; decide
  | some tt => simpa only [Option.getD_some] using keywords_lookup_ne_eof s tt hk

/-- Every successful scan yields the end-of-input token exactly once, as
the last element: every token produced by the dispatch branches carries a
non-EOF category and the EOF token is appended only when the input is
exhausted. -/
theorem lexLoop_ok_shape : ∀ (fuel : Nat) (cs : List Char) (ts : List Token),
    lexLoop fuel cs = .ok ts →
    ∃ ts0, ts = ts0 ++ [Token.make .EOF none] ∧
      ∀ t ∈ ts0, t.type ≠ TokenType.EOF := by
  intro fuel
  induction fuel with
  | zero => intro cs ts h; simp [lexLoop] at h
  | succ fuel ih =>
    intro cs ts h
    rcases cs with _ | ⟨ch, cs⟩
    · refine ⟨[], ?_, by simp⟩
      simpa [lexLoop] using h.symm
    · simp only [lexLoop] at h
      split_ifs at h with h1 h2 h3 h4 h5 h6
      · exact ih _ _ h
      · cases hrs : read_string cs with
        | error e => simp [hrs] at h
        | ok p =>
          obtain ⟨lit, rest⟩ := p
          simp only [hrs] at h
          obtain ⟨ts2, hts2, rfl⟩ := except_map_ok _ _ _ h
          obtain ⟨ts0, rfl, hne⟩ := ih _ _ hts2
          refine ⟨_ :: ts0, rfl, ?_⟩
          intro t ht
          rcases List.mem_cons.mp ht with rfl | ht2
          · rw [Token.make_type]; decide
          · exact hne _ ht2
      · cases hlk : BUILTIN_SYMBOLS_lookup (String.mk (read_operator ch cs)) with
        | none => simp [hlk] at h
        | some tt =>
          simp only [hlk] at h
          obtain ⟨ts2, hts2, rfl⟩ := except_map_ok _ _ _ h
          obtain ⟨ts0, rfl, hne⟩ := ih _ _ hts2
          refine ⟨_ :: ts0, rfl, ?_⟩
          intro t ht
          rcases List.mem_cons.mp ht with rfl | ht2
          · rw [Token.make_type]; exact symbols_lookup_ne_eof _ _ hlk
          · exact hne _ ht2
      · cases hlk : BUILTIN_SYMBOLS_lookup (String.mk [ch]) with
        | none => simp [hlk] at h
        | some tt =>
          simp only [hlk] at h
          obtain ⟨ts2, hts2, rfl⟩ := except_map_ok _ _ _ h
          obtain ⟨ts0, rfl, hne⟩ := ih _ _ hts2
          refine ⟨_ :: ts0, rfl, ?_⟩
          intro t ht
          rcases List.mem_cons.mp ht with rfl | ht2
          · rw [Token.make_type]; exact symbols_lookup_ne_eof _ _ hlk
          · exact hne _ ht2
      · rcases hri : read_iden ch cs with ⟨iden, rest⟩
        simp only [hri] at h
        obtain ⟨ts2, hts2, rfl⟩ := except_map_ok _ _ _ h
        obtain ⟨ts0, rfl, hne⟩ := ih _ _ hts2
        refine ⟨_ :: ts0, rfl, ?_⟩
        intro t ht
        rcases List.mem_cons.mp ht with rfl | ht2
        · rw [Token.make_type]; exact keywords_getD_ne_eof _
        · exact hne _ ht2
      · cases hrn : read_number ch cs with
        | error e => simp [hrn] at h
        | ok p =>
          obtain ⟨num, rest⟩ := p
          simp only [hrn] at h
          obtain ⟨ts2, hts2, rfl⟩ := except_map_ok _ _ _ h
          obtain ⟨ts0, rfl, hne⟩ := ih _ _ hts2
          refine ⟨_ :: ts0, rfl, ?_⟩
          intro t ht
          rcases List.mem_cons.mp ht with rfl | ht2
          · rw [Token.make_type]; decide
          · exact hne _ ht2

/-- Dropping a prefix never lengthens a list. -/
theorem length_dropWhile_le (p : Char → Bool) (l : List Char) :
    (l.dropWhile p).length ≤ l.length :=
  (List.dropWhile_suffix p).sublist.length_le

/-- The string scanner only consumes input. -/
theorem read_string_rest_le : ∀ (cs t r : List Char), read_string cs = .ok (t, r) →
    r.length ≤ cs.length := by
  intro cs
  induction cs with
  | nil => intro t r h; simp [read_string] at h
  | cons c cs ih =>
    intro t r h
    simp only [read_string] at h
    split_ifs at h with hq
    · obtain ⟨-, rfl⟩ : [] = t ∧ cs = r := by simpa using h
      exact Nat.le_succ _
    · cases hrs : read_string cs with
      | error e => simp [hrs] at h
      | ok p =>
        obtain ⟨t2, r2⟩ := p
        simp only [hrs] at h
        obtain ⟨-, rfl⟩ : c :: t2 = t ∧ r2 = r := by simpa using h
        exact le_trans (ih _ _ hrs) (Nat.le_succ _)

/-- The string scanner raises only `LexerError`. -/
theorem read_string_error_ne_fuel : ∀ (cs : List Char) (e : PyErr),
    read_string cs = .error e → e ≠ PyErr.internalFuelError := by
  intro cs
  induction cs with
  | nil =>
    intro e h
    simp only [read_string] at h
    injection h with h2
    subst h2
    decide
  | cons c cs ih =>
    intro e h
    simp only [read_string] at h
    split_ifs at h with hq
    cases hrs : read_string cs with
      | error e2 =>
        simp only [hrs] at h
        injection h with h2
        subst h2
        exact ih _ hrs
      | ok p =>
        obtain ⟨t2, r2⟩ := p
        simp only [hrs] at h
        injection h

/-- The float-shape check raises only `LexerError`. -/
theorem check_float_error_ne_fuel (ch : Char) (cp ce : Nat) (e : PyErr)
    (h : check_float ch cp ce = .error e) : e ≠ PyErr.internalFuelError := by
  simp only [check_float] at h
  split_ifs at h with h1 h2 h3 h4
  · injection h with hx
    subst hx
    decide
  · injection h with hx
    subst hx
    decide

/-- The decimal number loop only consumes input. -/
theorem read_number_dec_rest_le : ∀ (cs : List Char) (prev : Char) (cp ce : Nat)
    (t r : List Char), read_number_dec prev cp ce cs = .ok (t, r) →
    r.length ≤ cs.length := by
  intro cs
  induction cs with
  | nil =>
    intro prev cp ce t r h
    obtain ⟨-, rfl⟩ : [] = t ∧ [] = r := by simpa [read_number_dec] using h
    exact Nat.le_refl _
  | cons ch cs ih =>
    intro prev cp ce t r h
    simp only [read_number_dec] at h
    split_ifs at h with h1 h2 h3 h4
    · cases hcf : check_float ch cp ce with
      | error e => simp [hcf] at h
      | ok p =>
        obtain ⟨p1, e1⟩ := p
        simp only [hcf] at h
        cases hrd : read_number_dec ch p1 e1 cs with
        | error e2 => simp [hrd] at h
        | ok q =>
          obtain ⟨t2, r2⟩ := q
          simp only [hrd] at h
          obtain ⟨-, rfl⟩ : ch :: t2 = t ∧ r2 = r := by simpa using h
          exact le_trans (ih _ _ _ _ _ hrd) (Nat.le_succ _)
    · cases hrd : read_number_dec ch cp ce cs with
      | error e2 => simp [hrd] at h
      | ok q =>
        obtain ⟨t2, r2⟩ := q
        simp only [hrd] at h
        obtain ⟨-, rfl⟩ : ch :: t2 = t ∧ r2 = r := by simpa using h
        exact le_trans (ih _ _ _ _ _ hrd) (Nat.le_succ _)
    · obtain ⟨-, rfl⟩ : [] = t ∧ ch :: cs = r := by simpa using h
      exact Nat.le_refl _
    · cases hrd : read_number_dec ch cp ce cs with
      | error e2 => simp [hrd] at h
      | ok q =>
        obtain ⟨t2, r2⟩ := q
        simp only [hrd] at h
        obtain ⟨-, rfl⟩ : ch :: t2 = t ∧ r2 = r := by simpa using h
        exact le_trans (ih _ _ _ _ _ hrd) (Nat.le_succ _)
    · obtain ⟨-, rfl⟩ : [] = t ∧ ch :: cs = r := by simpa using h
      exact Nat.le_refl _

/-- The decimal number loop raises only `LexerError`. -/
theorem read_number_dec_error_ne_fuel : ∀ (cs : List Char) (prev : Char) (cp ce : Nat)
    (e : PyErr), read_number_dec prev cp ce cs = .error e →
    e ≠ PyErr.internalFuelError := by
  intro cs
  induction cs with
  | nil => intro prev cp ce e h; simp [read_number_dec] at h
  | cons ch cs ih =>
    intro prev cp ce e h
    simp only [read_number_dec] at h
    split_ifs at h with h1 h2 h3 h4
    · cases hcf : check_float ch cp ce with
      | error e2 =>
        simp only [hcf] at h
        obtain rfl : e2 = e := by simpa using h
        exact check_float_error_ne_fuel _ _ _ _ hcf
      | ok p =>
        obtain ⟨p1, e1⟩ := p
        simp only [hcf] at h
        cases hrd : read_number_dec ch p1 e1 cs with
        | error e2 =>
          simp only [hrd] at h
          obtain rfl : e2 = e := by simpa using h
          exact ih _ _ _ _ hrd
        | ok q =>
          obtain ⟨t2, r2⟩ := q
          simp [hrd] at h
    · cases hrd : read_number_dec ch cp ce cs with
      | error e2 =>
        simp only [hrd] at h
        obtain rfl : e2 = e := by simpa using h
        exact ih _ _ _ _ hrd
      | ok q =>
        obtain ⟨t2, r2⟩ := q
        simp [hrd] at h
    · cases hrd : read_number_dec ch cp ce cs with
      | error e2 =>
        simp only [hrd] at h
        obtain rfl : e2 = e := by simpa using h
        exact ih _ _ _ _ hrd
      | ok q =>
        obtain ⟨t2, r2⟩ := q
        simp [hrd] at h

/-- The number scanner only consumes input. -/
theorem read_number_rest_le (c : Char) (cs t r : List Char)
    (h : read_number c cs = .ok (t, r)) : r.length ≤ cs.length := by
  simp only [read_number] at h
  split_ifs at h with hhex
  · rcases cs with _ | ⟨x, cs2⟩
    · obtain ⟨-, rfl⟩ : [c] = t ∧ [] = r := by simpa using h
      exact Nat.le_refl _
    · obtain ⟨-, rfl⟩ : _ = t ∧ cs2.dropWhile is_hexdigit = r := by simpa using h
      exact le_trans (length_dropWhile_le _ _) (Nat.le_succ _)
  · cases hrd : read_number_dec c 0 0 cs with
    | error e => simp [hrd] at h
    | ok q =>
      obtain ⟨t2, r2⟩ := q
      simp only [hrd] at h
      obtain ⟨-, rfl⟩ : c :: t2 = t ∧ r2 = r := by simpa using h
      exact read_number_dec_rest_le _ _ _ _ _ _ hrd

/-- The number scanner raises only `LexerError`. -/
theorem read_number_error_ne_fuel (c : Char) (cs : List Char) (e : PyErr)
    (h : read_number c cs = .error e) : e ≠ PyErr.internalFuelError := by
  simp only [read_number] at h
  split_ifs at h with hhex
  · rcases cs with _ | ⟨x, cs2⟩ <;> injection h
  · cases hrd : read_number_dec c 0 0 cs with
    | error e2 =>
      simp only [hrd] at h
      obtain rfl : e2 = e := by simpa using h
      exact read_number_dec_error_ne_fuel _ _ _ _ _ hrd
    | ok q =>
      obtain ⟨t2, r2⟩ := q
      simp [hrd] at h

/-- The scan position strictly advances on every non-error step, so fuel
exceeding the input length is never exhausted: the fuel artefact of the
embedding is unreachable for the fuel `lexer_tokens` supplies. -/
theorem lexLoop_no_fuel_error : ∀ (fuel : Nat) (cs : List Char), cs.length < fuel →
    lexLoop fuel cs ≠ .error PyErr.internalFuelError := by
  intro fuel
  induction fuel with
  | zero => intro cs hlen; exact absurd hlen (Nat.not_lt_zero _)
  | succ fuel ih =>
    intro cs hlen h
    rcases cs with _ | ⟨ch, cs⟩
    · simp [lexLoop] at h
    · have hcs : cs.length < fuel := by
        simpa using Nat.lt_of_succ_lt_succ hlen
      simp only [lexLoop] at h
      split_ifs at h with h1 h2 h3 h4 h5 h6
      · exact ih cs hcs h
      · cases hrs : read_string cs with
        | error e =>
          simp only [hrs] at h
          injection h with hx
          exact read_string_error_ne_fuel _ _ hrs hx
        | ok p =>
          obtain ⟨lit, rest⟩ := p
          simp only [hrs] at h
          have h2e := except_map_error _ _ _ h
          exact ih rest (lt_of_le_of_lt (read_string_rest_le _ _ _ hrs) hcs) h2e
      · cases hlk : BUILTIN_SYMBOLS_lookup (String.mk (read_operator ch cs)) with
        | none => simp only [hlk] at h; injection h with hx; exact PyErr.noConfusion hx
        | some tt =>
          simp only [hlk] at h
          have h2e := except_map_error _ _ _ h
          refine ih _ ?_ h2e
          calc (cs.drop ((read_operator ch cs).length - 1)).length
              ≤ cs.length := by
                rw [List.length_drop]
                omega
            _ < fuel := hcs
      · cases hlk : BUILTIN_SYMBOLS_lookup (String.mk [ch]) with
        | none => simp only [hlk] at h; injection h with hx; exact PyErr.noConfusion hx
        | some tt =>
          simp only [hlk] at h
          exact ih cs hcs (except_map_error _ _ _ h)
      · rcases hri : read_iden ch cs with ⟨iden, rest⟩
        simp only [hri] at h
        have hrest : rest.length ≤ cs.length := by
          have : rest = cs.dropWhile (fun c => is_letter c || is_digit c) := by
            have := hri.symm
            simp only [read_iden] at this
            exact congrArg Prod.snd this
          rw [this]
          exact length_dropWhile_le _ _
        exact ih rest (lt_of_le_of_lt hrest hcs) (except_map_error _ _ _ h)
      · cases hrn : read_number ch cs with
        | error e =>
          simp only [hrn] at h
          injection h with hx
          exact read_number_error_ne_fuel _ _ _ hrn hx
        | ok p =>
          obtain ⟨num, rest⟩ := p
          simp only [hrn] at h
          exact ih rest (lt_of_le_of_lt (read_number_rest_le _ _ _ _ hrn) hcs)
            (except_map_error _ _ _ h)
      · injection h with hx
        exact PyErr.noConfusion hx

/-- C9: for every finite input string the lexer's token sequence is finite
and terminates — the embedding's fuel bound is never the reason a scan
stops — and after all input-derived tokens it yields exactly one
end-of-input token, which closes the sequence. -/
theorem claim_C9_lexer_terminates : ∀ (input : String),
    lexer_tokens input ≠ .error PyErr.internalFuelError ∧
    (∀ ts, lexer_tokens input = .ok ts →
      ∃ ts0, ts = ts0 ++ [Token.make .EOF none] ∧
        ∀ t ∈ ts0, t.type ≠ TokenType.EOF) := by
  intro input
  exact ⟨lexLoop_no_fuel_error _ _ (Nat.lt_succ_self _),
         fun ts h => lexLoop_ok_shape _ _ _ h⟩

/-- Witness for C9 at the concrete input `"1;"`. -/
theorem claim_C9_witness :
    lexer_tokens "1;" ≠ .error PyErr.internalFuelError ∧
    (∃ ts0, ([Token.make .NUMBER (some "1"), Token.make .SEMICOLON none,
              Token.make .EOF none] : List Token) =
        ts0 ++ [Token.make .EOF none] ∧
      ∀ t ∈ ts0, t.type ≠ TokenType.EOF) :=
  ⟨(claim_C9_lexer_terminates "1;").1,
   (claim_C9_lexer_terminates "1;").2 _ (by decide)⟩

end Pyzlang
